import Mathlib

/-!
Verification of the mop session controller (cmd/mop/main.go).

The session loop `mainLoop` multiplexes one keyboard stream and three timer
cadences into a modal state machine.  We embed it shallowly: the loop's
mutable locals (`lineEditor`, `columnEditor`, `showingHelp`, `paused`)
become a `LoopState`; each iteration of the `select` becomes the pure
function `mainLoopStep`, which returns the quit flag, the next state, and
the list of side effects (collaborator calls) performed during that
iteration.  Results of collaborator calls that the loop branches on
(editor `Handle` completion, `profile.Regroup()` success, the ticker-list
length) are supplied by an environment `Env`.
-/

namespace Mop

/-- Special key codes from the termbox event that `mainLoop` inspects
(`KeyEsc`, `KeyPgdn`, `KeyPgup`, `KeyArrowDown`, `KeyArrowUp`); every other
key code is collapsed into `noKey`, since the loop compares against these
five only. -/
inductive SpecialKey where
  | esc
  | pgdn
  | pgup
  | arrowDown
  | arrowUp
  | noKey
  deriving DecidableEq, Repr

/-- A termbox keyboard event as `mainLoop` sees it: the special key code
`key` (`event.Key`) and the printable character `ch` (`event.Ch`, the
rune `Char.ofNat 0` when absent). -/
structure KeyEvent where
  key : SpecialKey
  ch : Char
  deriving DecidableEq, Repr

/-- An event selected by the `select` statement of `mainLoop`: a keyboard
key event, a terminal resize event, or a tick of one of the three timer
cadences (1s timestamp, 5s quotes, 12s market). -/
inductive Event where
  | key (ev : KeyEvent)
  | resize
  | tickTimestamp
  | tickQuotes
  | tickMarket
  deriving DecidableEq, Repr

/-- A side effect performed by one iteration of `mainLoop`: each
constructor records one call into a collaborator (`screen`, `profile`,
or an editor), in the order the Go code makes them. -/
inductive Effect where
  | drawTime
  | drawQuotes
  | drawMarket
  | drawMarketQuotes
  | drawHelp
  | clearScreen
  | resizeScreen
  | pauseScreen (paused : Bool)
  | newLineEditor
  | promptLineEditor (c : Char)
  | newColumnEditor
  | setFilterEmpty
  | regroup
  | increaseOffset (step tickerCount : Nat)
  | decreaseOffset (step : Nat)
  | forwardToLineEditor (ev : KeyEvent)
  | forwardToColumnEditor (ev : KeyEvent)
  deriving DecidableEq, Repr

/-- The mutable locals of `mainLoop`: whether a line editor instance is
live (`lineEditor != nil`), whether a column editor instance is live
(`columnEditor != nil`), the `showingHelp` flag and the `paused` flag. -/
structure LoopState where
  lineEditor : Bool
  columnEditor : Bool
  showingHelp : Bool
  paused : Bool
  deriving DecidableEq, Repr

/-- The locals at loop entry: no editor, help off, not paused. -/
def initState : LoopState :=
  { lineEditor := false, columnEditor := false, showingHelp := false, paused := false }

/-- Results of the collaborator calls one loop iteration may branch on:
whether `lineEditor.Handle(event)` or `columnEditor.Handle(event)` reports
done, whether `profile.Regroup()` returned nil, and `len(profile.Tickers)`. -/
structure Env where
  lineEditorDone : KeyEvent → Bool
  columnEditorDone : KeyEvent → Bool
  regroupOk : Bool
  tickersLen : Nat

/-- The scroll step used by PgDn/PgUp and the arrow keys (`pgUpDownLines`
in `mainLoop`). -/
def pgUpDownLines : Nat := 10

/-- The spec's derived mode of the session: the loop dispatches on the
editors and the help flag in exactly this order (`lineEditor != nil`
first, then `columnEditor != nil`, then `showingHelp`). -/
inductive Mode where
  | normal
  | help
  | lineEdit
  | columnEdit
  deriving DecidableEq, Repr

/-- True on the two modes in which a modal editor owns keyboard input. -/
def Mode.isEditing : Mode → Bool
  | .lineEdit => true
  | .columnEdit => true
  | _ => false

/-- The mode determined by the loop locals, mirroring the dispatch order
of the `termbox.EventKey` case. -/
def LoopState.mode (s : LoopState) : Mode :=
  if s.lineEditor then Mode.lineEdit
  else if s.columnEditor then Mode.columnEdit
  else if s.showingHelp then Mode.help
  else Mode.normal

/-- The `termbox.EventKey` case of `mainLoop`, translated branch for
branch.  Returns (quit, next state, effects in call order). -/
def handleKey (env : Env) (s : LoopState) (ev : KeyEvent) :
    Bool × LoopState × List Effect :=
  if !s.lineEditor && !s.columnEditor && !s.showingHelp then
    if ev.key == SpecialKey.esc || ev.ch == 'q' || ev.ch == 'Q' then
      (true, s, [])
    else if ev.ch == '+' || ev.ch == '-' then
      (false, { s with lineEditor := true },
       [Effect.newLineEditor, Effect.promptLineEditor ev.ch])
    else if ev.ch == 'f' then
      (false, { s with lineEditor := true },
       [Effect.newLineEditor, Effect.promptLineEditor ev.ch])
    else if ev.ch == 'F' then
      (false, s, [Effect.setFilterEmpty])
    else if ev.ch == 'o' || ev.ch == 'O' then
      (false, { s with columnEditor := true }, [Effect.newColumnEditor])
    else if ev.ch == 'g' || ev.ch == 'G' then
      if env.regroupOk then
        (false, s, [Effect.regroup, Effect.drawQuotes])
      else
        (false, s, [Effect.regroup])
    else if ev.ch == 'p' || ev.ch == 'P' then
      (false, { s with paused := !s.paused },
       [Effect.pauseScreen (!s.paused), Effect.drawTime])
    else if ev.ch == '?' || ev.ch == 'h' || ev.ch == 'H' then
      (false, { s with showingHelp := true },
       [Effect.clearScreen, Effect.drawHelp])
    else if ev.key == SpecialKey.pgdn || ev.key == SpecialKey.arrowDown then
      (false, s,
       [Effect.increaseOffset pgUpDownLines env.tickersLen,
        Effect.clearScreen, Effect.drawMarketQuotes])
    else if ev.key == SpecialKey.pgup || ev.key == SpecialKey.arrowUp then
      (false, s,
       [Effect.decreaseOffset pgUpDownLines,
        Effect.clearScreen, Effect.drawMarketQuotes])
    else
      (false, s, [])
  else if s.lineEditor then
    if env.lineEditorDone ev then
      (false, { s with lineEditor := false }, [Effect.forwardToLineEditor ev])
    else
      (false, s, [Effect.forwardToLineEditor ev])
  else if s.columnEditor then
    if env.columnEditorDone ev then
      (false, { s with columnEditor := false }, [Effect.forwardToColumnEditor ev])
    else
      (false, s, [Effect.forwardToColumnEditor ev])
  else
    (false, { s with showingHelp := false },
     [Effect.clearScreen, Effect.drawMarketQuotes])

/-- One iteration of the `select` statement of `mainLoop`: dispatch the
selected event.  A resize always calls `screen.Resize()` and redraws the
help view or the normal view depending on `showingHelp`; each timer tick
redraws only when help is not showing and the loop is not paused. -/
def mainLoopStep (env : Env) (s : LoopState) : Event → Bool × LoopState × List Effect
  | Event.key ev => handleKey env s ev
  | Event.resize =>
      if !s.showingHelp then
        (false, s, [Effect.resizeScreen, Effect.drawMarketQuotes])
      else
        (false, s, [Effect.resizeScreen, Effect.drawHelp])
  | Event.tickTimestamp =>
      if !s.showingHelp && !s.paused then (false, s, [Effect.drawTime])
      else (false, s, [])
  | Event.tickQuotes =>
      if !s.showingHelp && !s.paused then (false, s, [Effect.drawQuotes])
      else (false, s, [])
  | Event.tickMarket =>
      if !s.showingHelp && !s.paused then (false, s, [Effect.drawMarket])
      else (false, s, [])

/-- Run `mainLoop` over a list of selected events, each paired with the
collaborator results for that iteration; stop when the quit flag is set. -/
def runSteps : List (Env × Event) → LoopState → LoopState
  | [], s => s
  | (env, e) :: rest, s =>
      match mainLoopStep env s e with
      | (true, s2, _) => s2
      | (false, s2, _) => runSteps rest s2

/-- Run `mainLoop` over a list of selected events, accumulating the side
effects of every iteration in order; stop when the quit flag is set. -/
def runTrace : List (Env × Event) → LoopState → LoopState × List Effect
  | [], s => (s, [])
  | (env, e) :: rest, s =>
      match mainLoopStep env s e with
      | (true, s2, effs) => (s2, effs)
      | (false, s2, effs) =>
          let r := runTrace rest s2
          (r.1, effs ++ r.2)

/-- True on the three timer-tick events. -/
def Event.isTick : Event → Bool
  | Event.tickTimestamp => true
  | Event.tickQuotes => true
  | Event.tickMarket => true
  | _ => false

/-- The single redraw effect bound to each tick cadence. -/
def Event.tickEffect : Event → Effect
  | Event.tickQuotes => Effect.drawQuotes
  | Event.tickMarket => Effect.drawMarket
  | _ => Effect.drawTime

/-- The redraw gate of the scheduler: help not showing and not paused. -/
def LoopState.gateOpen (s : LoopState) : Bool :=
  !s.showingHelp && !s.paused

/-- The structural invariant of the loop locals: the two editor slots are
never both live, and the help flag is never set while an editor is live. -/
def LoopState.wellFormed (s : LoopState) : Bool :=
  !(s.lineEditor && s.columnEditor) &&
  !(s.showingHelp && (s.lineEditor || s.columnEditor))

/-- The quit trigger tested by the Normal branch of the key handler:
escape, or the character q or Q. -/
def isQuitKey (ev : KeyEvent) : Bool :=
  ev.key == SpecialKey.esc || ev.ch == 'q' || ev.ch == 'Q'

end Mop

namespace Screen

/-- Modelled from the spec: `Screen.IncreaseOffset` lives in the rendering
collaborator, outside this source file; the spec gives
`increase(step, tickerCount)`: offset = min(offset+step,
max(0, tickerCount - visibleRows)). -/
def IncreaseOffset (offset step tickerCount visibleRows : Int) : Int :=
  min (offset + step) (max 0 (tickerCount - visibleRows))

/-- Modelled from the spec: `Screen.DecreaseOffset` lives in the rendering
collaborator, outside this source file; the spec gives `decrease(step)`:
offset = max(0, offset-step). -/
def DecreaseOffset (offset step : Int) : Int :=
  max 0 (offset - step)

/-- A scroll command: increase (page-down / down-arrow) or decrease
(page-up / up-arrow) by a step of that many lines. -/
inductive ScrollOp where
  | inc (step : Nat)
  | dec (step : Nat)
  deriving DecidableEq, Repr

/-- Apply one scroll command to the offset. -/
def applyScroll (tickerCount visibleRows offset : Int) : ScrollOp → Int
  | ScrollOp.inc step => IncreaseOffset offset step tickerCount visibleRows
  | ScrollOp.dec step => DecreaseOffset offset step

/-- Apply a sequence of scroll commands to the offset. -/
def runScroll (tickerCount visibleRows : Int) : List ScrollOp → Int → Int
  | [], offset => offset
  | op :: rest, offset =>
      runScroll tickerCount visibleRows rest (applyScroll tickerCount visibleRows offset op)

end Screen

namespace Startup

/-- Outcome of the profile-recovery prompt loop in `main`. -/
inductive PromptOutcome where
  | proceedWithDefault
  | exitCode (code : Nat)
  | awaitingInput
  deriving DecidableEq, Repr

/-- The blocking retry loop of `main` when `mop.NewProfile` fails: read a
single key, lowercase it, loop on anything other than y or n; on y call
`profile.InitDefaultProfile()` and break, on n call `os.Exit(1)`.  The
list holds the keys the user presses, in order; an exhausted list means
the loop is still blocked waiting for a key. -/
def recoveryLoop : List Char → PromptOutcome
  | [] => PromptOutcome.awaitingInput
  | c :: rest =>
      let res := c.toLower
      if res != 'y' && res != 'n' then recoveryLoop rest
      else if res == 'y' then PromptOutcome.proceedWithDefault
      else PromptOutcome.exitCode 1

/-- Observable outcome of `main` after the profile load: the process exit
code, whether `profile.Save()` ran (it runs only after `mainLoop`
returns), and whether `profile.InitDefaultProfile()` ran. -/
structure MainOutcome where
  exitCode : Nat
  profileSaved : Bool
  defaultProfileInit : Bool
  deriving DecidableEq, Repr

/-- The tail of `main` from the `mop.NewProfile` call on: when the load
succeeds the session runs and the profile is saved on exit; when it fails
the recovery prompt decides between exiting with code 1 (no save) and
reinitializing the default profile before running the session.  `none`
means the prompt is still blocked on input. -/
def mainModel (profileOk : Bool) (answers : List Char) : Option MainOutcome :=
  if profileOk then
    some { exitCode := 0, profileSaved := true, defaultProfileInit := false }
  else
    match recoveryLoop answers with
    | PromptOutcome.proceedWithDefault =>
        some { exitCode := 0, profileSaved := true, defaultProfileInit := true }
    | PromptOutcome.exitCode code =>
        some { exitCode := code, profileSaved := false, defaultProfileInit := false }
    | PromptOutcome.awaitingInput => none

end Startup

open Mop Screen Startup

/-- A concrete environment used by witnesses: editors never report done,
regroup succeeds, empty ticker list. -/
def envC : Env :=
  { lineEditorDone := fun _ => false, columnEditorDone := fun _ => false,
    regroupOk := true, tickersLen := 0 }

/-- A concrete state with the pause flag set, used by witnesses. -/
def pausedState : LoopState :=
  { lineEditor := false, columnEditor := false, showingHelp := false, paused := true }

/-- A concrete state with a live line editor, used by witnesses. -/
def lineEditState : LoopState :=
  { lineEditor := true, columnEditor := false, showingHelp := false, paused := false }

/-- True unless the effect is a scroll whose step differs from the fixed
page size of 10 lines. -/
def scrollStepOk : Effect → Bool
  | Effect.increaseOffset step _ => step == pgUpDownLines
  | Effect.decreaseOffset step => step == pgUpDownLines
  | _ => true

/-- The derived mode is Normal exactly when no editor is live and help is
not showing. -/
theorem mode_normal_iff (s : LoopState) :
    s.mode = Mode.normal ↔
      (s.lineEditor = false ∧ s.columnEditor = false ∧ s.showingHelp = false) := by
  obtain ⟨le, ce, sh, p⟩ := s
  cases le <;> cases ce <;> cases sh <;> simp [LoopState.mode]


/-- One tick of any cadence never quits, never changes the state, and
performs its single redraw exactly when the gate is open. -/
theorem mainLoopStep_tick (env : Env) (s : LoopState) (t : Event)
    (ht : t.isTick = true) :
    mainLoopStep env s t =
      (false, s, if s.gateOpen then [t.tickEffect] else []) := by
  have hgate : (!s.showingHelp && !s.paused) = s.gateOpen := rfl
  cases t with
  | key ev => simp [Event.isTick] at ht
  | resize => simp [Event.isTick] at ht
  | tickTimestamp =>
      simp only [mainLoopStep, hgate, Event.tickEffect]
      cases hg : s.gateOpen <;> simp [hg]
  | tickQuotes =>
      simp only [mainLoopStep, hgate, Event.tickEffect]
      cases hg : s.gateOpen <;> simp [hg]
  | tickMarket =>
      simp only [mainLoopStep, hgate, Event.tickEffect]
      cases hg : s.gateOpen <;> simp [hg]

/-- C1: for every timer tick of any of the three cadences, the redraw is
performed if and only if help is not showing and the pause flag is false;
ticks that fire while gated are dropped with no state change, and while
the gate is open every tick (in particular the very next one after
unpausing) produces exactly its one redraw effect. -/
theorem tick_gating (env : Env) (s : LoopState) (ticks : List Event)
    (hticks : ∀ t ∈ ticks, t.isTick = true) :
    (s.gateOpen = false →
      runTrace (ticks.map (fun t => (env, t))) s = (s, [])) ∧
    (s.gateOpen = true →
      runTrace (ticks.map (fun t => (env, t))) s = (s, ticks.map Event.tickEffect)) := by
  induction ticks with
  | nil => simp [runTrace]
  | cons t rest ih =>
      have ht : t.isTick = true := hticks t (List.mem_cons_self t rest)
      have ih2 := ih (fun x hx => hticks x (List.mem_cons_of_mem t hx))
      constructor
      · intro hg
        simp only [List.map_cons, runTrace, mainLoopStep_tick env s t ht, hg]
        simp [ih2.1 hg]
      · intro hg
        simp only [List.map_cons, runTrace, mainLoopStep_tick env s t ht, hg]
        simp [ih2.2 hg]

/-- Witness for `tick_gating`: with the pause flag set, a burst of one
tick of each cadence leaves the state unchanged and performs no effect. -/
theorem tick_gating_witness :
    runTrace
      ([Event.tickTimestamp, Event.tickQuotes, Event.tickMarket].map
        (fun t => (envC, t))) pausedState = (pausedState, []) :=
  (tick_gating envC pausedState
      [Event.tickTimestamp, Event.tickQuotes, Event.tickMarket]
      (by decide)).1 (by decide)

/-- Case-analysis principle for `handleKey` in the Normal state: the
result is one of the eleven branch outcomes of the command dispatch, and
every branch other than quit is reached only when the quit trigger is
absent. -/
theorem handleKey_normal_cases (env : Env) (p : Bool) (ev : KeyEvent)
    (motive : Bool × LoopState × List Effect → Prop)
    (hquit : isQuitKey ev = true → motive (true, ⟨false, false, false, p⟩, []))
    (hedit : isQuitKey ev = false →
      motive (false, ⟨true, false, false, p⟩,
        [Effect.newLineEditor, Effect.promptLineEditor ev.ch]))
    (hfilter : isQuitKey ev = false →
      motive (false, ⟨false, false, false, p⟩, [Effect.setFilterEmpty]))
    (hcol : isQuitKey ev = false →
      motive (false, ⟨false, true, false, p⟩, [Effect.newColumnEditor]))
    (hgroup : isQuitKey ev = false →
      motive (false, ⟨false, false, false, p⟩,
        if env.regroupOk then [Effect.regroup, Effect.drawQuotes]
        else [Effect.regroup]))
    (hpause : isQuitKey ev = false →
      motive (false, ⟨false, false, false, !p⟩,
        [Effect.pauseScreen !p, Effect.drawTime]))
    (hhelp : isQuitKey ev = false →
      motive (false, ⟨false, false, true, p⟩,
        [Effect.clearScreen, Effect.drawHelp]))
    (hdown : isQuitKey ev = false →
      motive (false, ⟨false, false, false, p⟩,
        [Effect.increaseOffset pgUpDownLines env.tickersLen,
         Effect.clearScreen, Effect.drawMarketQuotes]))
    (hupk : isQuitKey ev = false →
      motive (false, ⟨false, false, false, p⟩,
        [Effect.decreaseOffset pgUpDownLines,
         Effect.clearScreen, Effect.drawMarketQuotes]))
    (hother : isQuitKey ev = false →
      motive (false, ⟨false, false, false, p⟩, [])) :
    motive (handleKey env ⟨false, false, false, p⟩ ev) := by
  unfold handleKey
  have hc : (!(LoopState.mk false false false p).lineEditor &&
      !(LoopState.mk false false false p).columnEditor &&
      !(LoopState.mk false false false p).showingHelp) = true := rfl
  rw [if_pos hc]
  by_cases h1 : (ev.key == SpecialKey.esc || ev.ch == 'q' || ev.ch == 'Q') = true
  · rw [if_pos h1]; exact hquit h1
  rw [if_neg h1]
  have h1f : isQuitKey ev = false := by simpa [isQuitKey] using h1
  by_cases h2 : (ev.ch == '+' || ev.ch == '-') = true
  · rw [if_pos h2]; exact hedit h1f
  rw [if_neg h2]
  by_cases h3 : (ev.ch == 'f') = true
  · rw [if_pos h3]; exact hedit h1f
  rw [if_neg h3]
  by_cases h4 : (ev.ch == 'F') = true
  · rw [if_pos h4]; exact hfilter h1f
  rw [if_neg h4]
  by_cases h5 : (ev.ch == 'o' || ev.ch == 'O') = true
  · rw [if_pos h5]; exact hcol h1f
  rw [if_neg h5]
  by_cases h6 : (ev.ch == 'g' || ev.ch == 'G') = true
  · rw [if_pos h6]
    have := hgroup h1f
    by_cases hg : env.regroupOk = true
    · rw [if_pos hg]; simpa [hg] using this
    · rw [if_neg hg]
      simp only [Bool.not_eq_true] at hg
      simpa [hg] using this
  rw [if_neg h6]
  by_cases h7 : (ev.ch == 'p' || ev.ch == 'P') = true
  · rw [if_pos h7]; exact hpause h1f
  rw [if_neg h7]
  by_cases h8 : (ev.ch == '?' || ev.ch == 'h' || ev.ch == 'H') = true
  · rw [if_pos h8]; exact hhelp h1f
  rw [if_neg h8]
  by_cases h9 : (ev.key == SpecialKey.pgdn || ev.key == SpecialKey.arrowDown) = true
  · rw [if_pos h9]; exact hdown h1f
  rw [if_neg h9]
  by_cases h10 : (ev.key == SpecialKey.pgup || ev.key == SpecialKey.arrowUp) = true
  · rw [if_pos h10]; exact hupk h1f
  rw [if_neg h10]
  exact hother h1f

/-- With a live line editor, every key event is forwarded verbatim to the
line editor, the loop does not quit, and only the line-editor slot can
change (released exactly when the editor reports done). -/
theorem handleKey_lineEditor (env : Env) (s : LoopState) (ev : KeyEvent)
    (h : s.lineEditor = true) :
    handleKey env s ev =
      (false,
       if env.lineEditorDone ev then { s with lineEditor := false } else s,
       [Effect.forwardToLineEditor ev]) := by
  unfold handleKey
  rw [if_neg (by simp [h])]
  rw [if_pos h]
  cases hd : env.lineEditorDone ev <;> simp [hd]

/-- With a live column editor (and no line editor), every key event is
forwarded verbatim to the column editor, the loop does not quit, and only
the column-editor slot can change. -/
theorem handleKey_columnEditor (env : Env) (s : LoopState) (ev : KeyEvent)
    (hle : s.lineEditor = false) (h : s.columnEditor = true) :
    handleKey env s ev =
      (false,
       if env.columnEditorDone ev then { s with columnEditor := false } else s,
       [Effect.forwardToColumnEditor ev]) := by
  unfold handleKey
  rw [if_neg (by simp [h])]
  rw [if_neg (by simp [hle])]
  rw [if_pos h]
  cases hd : env.columnEditorDone ev <;> simp [hd]

/-- With help showing and no editor live, any key event dismisses help
and redraws the normal view. -/
theorem handleKey_helpDismiss (env : Env) (s : LoopState) (ev : KeyEvent)
    (hle : s.lineEditor = false) (hce : s.columnEditor = false)
    (h : s.showingHelp = true) :
    handleKey env s ev =
      (false, { s with showingHelp := false },
       [Effect.clearScreen, Effect.drawMarketQuotes]) := by
  unfold handleKey
  rw [if_neg (by simp [h])]
  rw [if_neg (by simp [hle])]
  rw [if_neg (by simp [hce])]

/-- One handled event preserves the structural invariant of the locals. -/
theorem wellFormed_step (env : Env) (s : LoopState) (e : Event)
    (h : s.wellFormed = true) : (mainLoopStep env s e).2.1.wellFormed = true := by
  obtain ⟨le, ce, sh, p⟩ := s
  cases e with
  | key ev =>
      show ((handleKey env ⟨le, ce, sh, p⟩ ev).2.1.wellFormed = true)
      cases le with
      | true =>
          rw [handleKey_lineEditor env _ ev rfl]
          cases ce <;> cases sh <;>
            simp_all [LoopState.wellFormed] <;>
            cases env.lineEditorDone ev <;> simp
      | false =>
          cases ce with
          | true =>
              rw [handleKey_columnEditor env _ ev rfl rfl]
              cases sh <;>
                simp_all [LoopState.wellFormed] <;>
                cases env.columnEditorDone ev <;> simp
          | false =>
              cases sh with
              | true =>
                  rw [handleKey_helpDismiss env _ ev rfl rfl rfl]
                  rfl
              | false =>
                  refine handleKey_normal_cases env p ev
                    (fun r => r.2.1.wellFormed = true)
                    ?_ ?_ ?_ ?_ ?_ ?_ ?_ ?_ ?_ ?_ <;> exact fun _ => rfl
  | resize =>
      cases sh <;> simp_all [mainLoopStep, LoopState.wellFormed]
  | tickTimestamp =>
      cases sh <;> cases p <;> simp_all [mainLoopStep, LoopState.wellFormed]
  | tickQuotes =>
      cases sh <;> cases p <;> simp_all [mainLoopStep, LoopState.wellFormed]
  | tickMarket =>
      cases sh <;> cases p <;> simp_all [mainLoopStep, LoopState.wellFormed]

/-- The structural invariant holds after any run that starts in a
well-formed state. -/
theorem wellFormed_runSteps (evs : List (Env × Event)) (s : LoopState)
    (h : s.wellFormed = true) : (runSteps evs s).wellFormed = true := by
  induction evs generalizing s with
  | nil => exact h
  | cons pair rest ih =>
      obtain ⟨env, e⟩ := pair
      have h2 := wellFormed_step env s e h
      simp only [runSteps]
      rcases hstep : mainLoopStep env s e with ⟨q, s2, effs⟩
      rw [hstep] at h2
      cases q
      · exact ih s2 h2
      · exact h2

/-- An editor slot is live exactly when the derived mode is an editing
mode, for every state. -/
theorem editor_slot_iff_mode (s : LoopState) :
    (s.lineEditor || s.columnEditor) = s.mode.isEditing := by
  obtain ⟨le, ce, sh, p⟩ := s
  cases le <;> cases ce <;> cases sh <;> simp [LoopState.mode, Mode.isEditing]

/-- C2: after every sequence of handled events from the initial state,
the two editor slots are never both live, the help flag is never set
while an editor is live, and the editor slot is non-empty exactly when
the derived mode is LineEdit or ColumnEdit (the mode being one of the
four enum values by construction). -/
theorem mode_editor_invariant (evs : List (Env × Event)) :
    (runSteps evs initState).wellFormed = true ∧
    ((runSteps evs initState).lineEditor || (runSteps evs initState).columnEditor)
      = (runSteps evs initState).mode.isEditing := by
  exact ⟨wellFormed_runSteps evs initState rfl, editor_slot_iff_mode _⟩

/-- C3: a quit trigger (escape or q/Q) exits the loop exactly when the
mode is Normal, and a key pressed while the line editor is live is
forwarded verbatim to the editor and never terminates the loop. -/
theorem quit_only_in_normal (env : Env) (s : LoopState) (ev : KeyEvent) :
    ((handleKey env s ev).1 = true ↔
      (s.mode = Mode.normal ∧ isQuitKey ev = true)) ∧
    (s.lineEditor = true →
      (handleKey env s ev).1 = false ∧
      (handleKey env s ev).2.2 = [Effect.forwardToLineEditor ev]) := by
  obtain ⟨le, ce, sh, p⟩ := s
  cases le with
  | true =>
      rw [handleKey_lineEditor env _ ev rfl]
      constructor
      · simp [LoopState.mode]
      · intro _
        constructor <;> rfl
  | false =>
      cases ce with
      | true =>
          rw [handleKey_columnEditor env _ ev rfl rfl]
          constructor
          · simp [LoopState.mode]
          · intro hfalse
            cases hfalse
      | false =>
          cases sh with
          | true =>
              rw [handleKey_helpDismiss env _ ev rfl rfl rfl]
              constructor
              · simp [LoopState.mode]
              · intro hfalse
                cases hfalse
          | false =>
              refine handleKey_normal_cases env p ev
                (fun r => (r.1 = true ↔
                   ((LoopState.mk false false false p).mode = Mode.normal ∧
                    isQuitKey ev = true)) ∧
                  ((LoopState.mk false false false p).lineEditor = true →
                    r.1 = false ∧ r.2.2 = [Effect.forwardToLineEditor ev]))
                ?_ ?_ ?_ ?_ ?_ ?_ ?_ ?_ ?_ ?_ <;>
                intro hq <;>
                constructor <;>
                simp [LoopState.mode, hq]

/-- Witness for `quit_only_in_normal`: a q pressed while the line editor
is live does not quit and is forwarded to the editor. -/
theorem quit_only_in_normal_witness :
    (handleKey envC lineEditState { key := SpecialKey.noKey, ch := 'q' }).1 = false ∧
    (handleKey envC lineEditState { key := SpecialKey.noKey, ch := 'q' }).2.2 =
      [Effect.forwardToLineEditor { key := SpecialKey.noKey, ch := 'q' }] :=
  (quit_only_in_normal envC lineEditState
      { key := SpecialKey.noKey, ch := 'q' }).2 rfl

/-- C4 counterexample: classification is not case-insensitive for every
letter command; in the initial (Normal) state, pressing f and pressing F
produce different results (f enters line editing, F clears the filter). -/
theorem filter_key_case_sensitive :
    handleKey envC initState { key := SpecialKey.noKey, ch := 'f' } ≠
      handleKey envC initState { key := SpecialKey.noKey, ch := 'F' } := by
  decide

/-- C4 amended: in Normal mode, classification is case-insensitive for
the letter commands q, o, g, p and h (each pressed with any special-key
code), but not for f: pressing f enters line editing while pressing F
clears the filter, so the two are distinct commands. -/
theorem letter_case_insensitive_except_filter (env : Env) (s : LoopState)
    (k : SpecialKey) (hmode : s.mode = Mode.normal) :
    (∀ pr ∈ [('q', 'Q'), ('o', 'O'), ('g', 'G'), ('p', 'P'), ('h', 'H')],
      handleKey env s { key := k, ch := pr.1 } =
        handleKey env s { key := k, ch := pr.2 }) ∧
    handleKey env s { key := SpecialKey.noKey, ch := 'f' } ≠
      handleKey env s { key := SpecialKey.noKey, ch := 'F' } := by
  obtain ⟨le, ce, sh, p⟩ := s
  cases le <;> cases ce <;> cases sh <;> simp [LoopState.mode] at hmode
  constructor
  · intro pr hpr
    fin_cases hpr <;> cases k <;> rfl
  · intro hcontra
    exact absurd
      (congrArg (fun r => r.2.2.length) hcontra : (2 : Nat) = 1) (by decide)

/-- Witness for `letter_case_insensitive_except_filter`: o and O are the
same command in the initial state, while f and F differ there. -/
theorem letter_case_witness :
    handleKey envC initState { key := SpecialKey.noKey, ch := 'o' } =
      handleKey envC initState { key := SpecialKey.noKey, ch := 'O' } :=
  (letter_case_insensitive_except_filter envC initState SpecialKey.noKey rfl).1
    ('o', 'O') (by decide)

/-- Invalid single-key answers are reported and retried: the recovery
loop skips any run of keys that lowercase to neither y nor n. -/
theorem recoveryLoop_skip (pre xs : List Char)
    (hpre : ∀ c ∈ pre, c.toLower ≠ 'y' ∧ c.toLower ≠ 'n') :
    recoveryLoop (pre ++ xs) = recoveryLoop xs := by
  induction pre with
  | nil => rfl
  | cons c cs ih =>
      have hc := hpre c (List.mem_cons_self c cs)
      have hcs : ∀ x ∈ cs, x.toLower ≠ 'y' ∧ x.toLower ≠ 'n' :=
        fun x hx => hpre x (List.mem_cons_of_mem c hx)
      simp only [List.cons_append, recoveryLoop]
      rw [if_pos (by simp [hc.1, hc.2])]
      exact ih hcs

/-- C5: when the profile is corrupted at startup, after any run of
invalid answers an n exits the process with status 1 and the profile is
never saved nor reinitialized, while a y reinitializes the default
profile and proceeds into the session (whose normal exit saves the
profile); when the profile loads fine no prompt occurs at all. -/
theorem profile_recovery_outcomes (pre rest : List Char)
    (hpre : ∀ c ∈ pre, c.toLower ≠ 'y' ∧ c.toLower ≠ 'n') :
    mainModel false (pre ++ 'n' :: rest) =
      some { exitCode := 1, profileSaved := false, defaultProfileInit := false } ∧
    mainModel false (pre ++ 'y' :: rest) =
      some { exitCode := 0, profileSaved := true, defaultProfileInit := true } ∧
    (∀ answers : List Char, mainModel true answers =
      some { exitCode := 0, profileSaved := true, defaultProfileInit := false }) := by
  refine ⟨?_, ?_, fun answers => rfl⟩
  · simp only [mainModel, recoveryLoop_skip pre ('n' :: rest) hpre]
    rfl
  · simp only [mainModel, recoveryLoop_skip pre ('y' :: rest) hpre]
    rfl

/-- Witness for `profile_recovery_outcomes`: after one invalid answer x,
answering n exits with code 1 and nothing is written. -/
theorem profile_recovery_witness :
    mainModel false (['x'] ++ 'n' :: []) =
      some { exitCode := 1, profileSaved := false, defaultProfileInit := false } :=
  (profile_recovery_outcomes ['x'] [] (by decide)).1

/-- C10: the recovery prompt lowercases the pressed key before the
comparison, so uppercase Y and N are valid answers behaving exactly like
y and n. -/
theorem recovery_prompt_uppercase (rest : List Char) :
    recoveryLoop ('Y' :: rest) = recoveryLoop ('y' :: rest) ∧
    recoveryLoop ('N' :: rest) = recoveryLoop ('n' :: rest) ∧
    recoveryLoop ('Y' :: rest) = PromptOutcome.proceedWithDefault ∧
    recoveryLoop ('N' :: rest) = PromptOutcome.exitCode 1 := by
  refine ⟨rfl, rfl, rfl, rfl⟩

/-- Any scroll sequence started within bounds stays within bounds. -/
theorem runScroll_bounds (tc vr : Int) (ops : List ScrollOp) (offset : Int)
    (h0 : 0 ≤ offset) (h1 : offset ≤ max 0 (tc - vr)) :
    0 ≤ runScroll tc vr ops offset ∧
      runScroll tc vr ops offset ≤ max 0 (tc - vr) := by
  induction ops generalizing offset with
  | nil => exact ⟨h0, h1⟩
  | cons op rest ih =>
      rcases op with step | step
      · refine ih (IncreaseOffset offset step tc vr) ?_ ?_
        · exact le_min (add_nonneg h0 (Int.natCast_nonneg step)) (le_max_left 0 _)
        · exact min_le_right _ _
      · refine ih (DecreaseOffset offset step) ?_ ?_
        · exact le_max_left 0 _
        · exact max_le (le_max_left 0 _)
            (le_trans (sub_le_self offset (Int.natCast_nonneg step)) h1)

/-- C6: for every tickerCount at least 0 and every sequence of
increase/decrease scroll operations starting at offset 0, the offset
stays at least 0 and never exceeds max(0, tickerCount - visibleRows);
both operations clamp at the boundary without error. -/
theorem scroll_offset_bounded (tickerCount visibleRows : Int)
    (ops : List ScrollOp) (htc : 0 ≤ tickerCount) :
    0 ≤ runScroll tickerCount visibleRows ops 0 ∧
      runScroll tickerCount visibleRows ops 0 ≤
        max 0 (tickerCount - visibleRows) := by
  exact runScroll_bounds tickerCount visibleRows ops 0 le_rfl (le_max_left 0 _)

/-- Witness for `scroll_offset_bounded`: with 3 tickers and 10 visible
rows a page-down keeps the offset between 0 and max(0, 3 - 10) = 0. -/
theorem scroll_offset_witness :
    0 ≤ runScroll 3 10 [ScrollOp.inc 10] 0 ∧
      runScroll 3 10 [ScrollOp.inc 10] 0 ≤ max 0 (3 - 10) :=
  scroll_offset_bounded 3 10 [ScrollOp.inc 10] (by decide)

/-- C7: pressing g or G in Normal mode requests a regroup, the state is
kept, the loop continues, and the immediate redraw happens exactly when
the regroup call succeeds (on failure nothing but the regroup attempt is
performed). -/
theorem regroup_redraw_iff_success (env : Env) (s : LoopState) (ev : KeyEvent)
    (hmode : s.mode = Mode.normal)
    (hch : ev.ch = 'g' ∨ ev.ch = 'G')
    (hkey : ev.key ≠ SpecialKey.esc) :
    handleKey env s ev =
      (false, s,
       if env.regroupOk then [Effect.regroup, Effect.drawQuotes]
       else [Effect.regroup]) := by
  obtain ⟨le, ce, sh, p⟩ := s
  cases le <;> cases ce <;> cases sh <;> simp [LoopState.mode] at hmode
  have hk : (ev.key == SpecialKey.esc) = false := by
    simpa using hkey
  unfold handleKey
  have hc : (!(LoopState.mk false false false p).lineEditor &&
      !(LoopState.mk false false false p).columnEditor &&
      !(LoopState.mk false false false p).showingHelp) = true := rfl
  rw [if_pos hc]
  rcases hch with hch | hch <;>
    rw [if_neg (by simp [hch, hk]), if_neg (by simp [hch]),
      if_neg (by simp [hch]), if_neg (by simp [hch]), if_neg (by simp [hch]),
      if_pos (by simp [hch])] <;>
    cases hg : env.regroupOk <;> simp [hg]

/-- Witness for `regroup_redraw_iff_success`: in the initial state with a
succeeding regroup, g redraws the quotes view right after the regroup. -/
theorem regroup_redraw_witness :
    handleKey envC initState { key := SpecialKey.noKey, ch := 'g' } =
      (false, initState,
       if envC.regroupOk then [Effect.regroup, Effect.drawQuotes]
       else [Effect.regroup]) :=
  regroup_redraw_iff_success envC initState { key := SpecialKey.noKey, ch := 'g' }
    rfl (Or.inl rfl) (by decide)

/-- C8: every resize event re-renders regardless of mode: the state, the
editors and the pause flag are untouched, the loop continues, and the
view drawn is chosen by the help flag alone (two states agreeing on the
help flag get identical resize effects). -/
theorem resize_redraw_by_help_flag (env env2 : Env) (s s2 : LoopState)
    (h : s.showingHelp = s2.showingHelp) :
    (mainLoopStep env s Event.resize).1 = false ∧
    (mainLoopStep env s Event.resize).2.1 = s ∧
    (mainLoopStep env s Event.resize).2.2 =
      (mainLoopStep env2 s2 Event.resize).2.2 ∧
    (mainLoopStep env s Event.resize).2.2 =
      (if s.showingHelp then [Effect.resizeScreen, Effect.drawHelp]
       else [Effect.resizeScreen, Effect.drawMarketQuotes]) := by
  have h2 : s2.showingHelp = s.showingHelp := h.symm
  cases hs : s.showingHelp <;>
    simp [mainLoopStep, hs, h2]

/-- Witness for `resize_redraw_by_help_flag`: a resize in the initial
state redraws the normal market and quotes view and changes nothing. -/
theorem resize_redraw_witness :
    (mainLoopStep envC initState Event.resize).1 = false ∧
    (mainLoopStep envC initState Event.resize).2.1 = initState ∧
    (mainLoopStep envC initState Event.resize).2.2 =
      (mainLoopStep envC initState Event.resize).2.2 ∧
    (mainLoopStep envC initState Event.resize).2.2 =
      (if initState.showingHelp then [Effect.resizeScreen, Effect.drawHelp]
       else [Effect.resizeScreen, Effect.drawMarketQuotes]) :=
  resize_redraw_by_help_flag envC envC initState initState rfl

/-- C9: every scroll command uses the same fixed step of 10 lines:
down-arrow scrolls exactly like PgDn and up-arrow exactly like PgUp, by
pgUpDownLines = 10 lines, and no event ever produces a scroll effect
with any other step, so no single-line scroll exists. -/
theorem scroll_step_is_ten (env : Env) (s : LoopState)
    (hmode : s.mode = Mode.normal) :
    pgUpDownLines = 10 ∧
    (∀ k ∈ [SpecialKey.pgdn, SpecialKey.arrowDown],
      handleKey env s { key := k, ch := Char.ofNat 0 } =
        (false, s,
         [Effect.increaseOffset pgUpDownLines env.tickersLen,
          Effect.clearScreen, Effect.drawMarketQuotes])) ∧
    (∀ k ∈ [SpecialKey.pgup, SpecialKey.arrowUp],
      handleKey env s { key := k, ch := Char.ofNat 0 } =
        (false, s,
         [Effect.decreaseOffset pgUpDownLines,
          Effect.clearScreen, Effect.drawMarketQuotes])) ∧
    (∀ e : Event, ((mainLoopStep env s e).2.2).all scrollStepOk = true) := by
  obtain ⟨le, ce, sh, p⟩ := s
  cases le <;> cases ce <;> cases sh <;> simp [LoopState.mode] at hmode
  refine ⟨rfl, ?_, ?_, ?_⟩
  · intro k hk
    fin_cases hk <;> rfl
  · intro k hk
    fin_cases hk <;> rfl
  · intro e
    cases e with
    | key ev =>
        refine handleKey_normal_cases env p ev
          (fun r => (r.2.2.all scrollStepOk) = true)
          ?_ ?_ ?_ ?_ ?_ ?_ ?_ ?_ ?_ ?_ <;>
          intro hq <;>
          first
            | rfl
            | (cases hg : env.regroupOk <;> simp [hg, scrollStepOk])
    | resize => rfl
    | tickTimestamp => cases p <;> rfl
    | tickQuotes => cases p <;> rfl
    | tickMarket => cases p <;> rfl

/-- Witness for `scroll_step_is_ten`: a down-arrow in the initial state
scrolls by the 10-line page step. -/
theorem scroll_step_witness :
    handleKey envC initState { key := SpecialKey.arrowDown, ch := Char.ofNat 0 } =
      (false, initState,
       [Effect.increaseOffset pgUpDownLines envC.tickersLen,
        Effect.clearScreen, Effect.drawMarketQuotes]) :=
  (scroll_step_is_ten envC initState rfl).2.1 SpecialKey.arrowDown (by decide)
